import Mathlib

/-!
Verification of the `meeseeks_box` PDF translator against its specification.

This file shallowly embeds the parts of `src/pdf_translator` that the claims
C1..C10 are about:

* `translate_text` (translate.py, lines 14-94): caching, retry and
  degrade-to-passthrough behaviour.  The md5 hashing primitive and the HTTP
  transport are external collaborators; they are abstracted as a hash
  function parameter `tmd5` and an attempt oracle `net : Nat → ApiResp`.
  Python dictionaries are modelled as insertion-ordered association lists
  (`alFind` / `alSet`), matching dict lookup and `d[k] = v` semantics.
* the per-fragment rendering logic of `create_clean_translated_pdf`
  (translate.py, lines 338-465): formula guard, cache lookup, the
  descending font-size fitting loop, and the commit loop, producing a list
  of drawing operations (`DrawOp`).  Vector text insertion
  (`page.insert_text`), which can fail on glyph encoding issues, is
  abstracted as an oracle `ins : String → Nat → Bool` of the inserted line
  and font size.
* `is_formula` (text_utils.py, lines 7-15).
* `is_image_based_pdf` (ocr.py, lines 14-47); the final division models
  Python `/`, raising `ZeroDivisionError` (modelled as `Except.error`)
  when the denominator `min(total_pages, 5)` is zero.
* the paragraph-store save/load round trip of `main` (main.py, lines 70-77
  and 109-116); the JSON layer is modelled structurally (Python's json
  round-trips strings and floats losslessly in this schema), while the
  `str(page_num)` / `int(page_num_str)` key conversion is modelled
  explicitly by `pyStrOfNat` / `pyIntOfStr`.
* the `regenerate` command's missing-paragraphs-file path (main.py,
  lines 102-107) and the call into `create_translated_pdf_ocr_approach`
  (main.py, lines 119-123 against ocr.py, lines 127-134 and 208-210).

Geometry uses exact rationals `ℚ` in place of Python floats; all constants
involved (margins 2/4/5, width factor 0.5, line height `size + 2`) are
exactly representable in binary floating point, so the comparisons agree.
-/

/-! ## Python dictionaries as insertion-ordered association lists -/

/-- Lookup in an insertion-ordered association list: the model of Python
`d[k]` / `k in d` for the dictionaries used by the translator. -/
def alFind (k : String) : List (String × α) → Option α
  | [] => none
  | (k', v) :: rest => if k' = k then some v else alFind k rest

/-- Update in an insertion-ordered association list: the model of Python
`d[k] = v` (overwrite in place if the key exists, else append). -/
def alSet (k : String) (v : α) : List (String × α) → List (String × α)
  | [] => [(k, v)]
  | (k', v') :: rest => if k' = k then (k, v) :: rest else (k', v') :: alSet k v rest

/-- The translation cache `{file_md5: {text_md5: translated_text}}`. -/
abbrev Cache := List (String × List (String × String))

/-- Model of `file_md5 in cache and text_md5 in cache[file_md5]` followed by
`cache[file_md5][text_md5]` (translate.py, lines 20-22 and 346-347). -/
def cacheGet (cache : Cache) (fileMd5 textMd5 : String) : Option String :=
  match alFind fileMd5 cache with
  | none => none
  | some inner => alFind textMd5 inner

/-- Model of the cache write
`if file_md5 not in cache: cache[file_md5] = {}` followed by
`cache[file_md5][text_md5] = v` (translate.py, lines 73-75, and the
identical snippet in main.py, lines 94-96). -/
def cacheSet (cache : Cache) (fileMd5 textMd5 v : String) : Cache :=
  match alFind fileMd5 cache with
  | none => alSet fileMd5 (alSet textMd5 v []) cache
  | some inner => alSet fileMd5 (alSet textMd5 v inner) cache

/-! ## translate_text (translate.py, lines 14-94) -/

/-- Model of Python `str.strip()` (translate.py, line 63): drop leading and
trailing whitespace. -/
def pyStrip (s : String) : String :=
  String.mk (((s.data.dropWhile Char.isWhitespace).reverse.dropWhile Char.isWhitespace).reverse)

/-- Outcome of one `requests.post` attempt, as discriminated by the code:
a raised exception (line 86), a non-200 status (line 78), a 200 response
whose JSON body misses `response`/`choices` (line 64), or a 200 response
with content (line 63). -/
inductive ApiResp where
  | exn
  | errStatus
  | okBad
  | okGood (content : String)
  deriving DecidableEq

/-- Python truthiness of the config values `api_key` / `api_endpoint`
(`None` and the empty string are falsy). -/
def pyTruthy : Option String → Bool
  | none => false
  | some s => !s.data.isEmpty

/-- The retry loop `for attempt in range(max_retries)` of translate.py,
lines 52-94, with `k` attempts remaining and `i` the current attempt index.
Returns the result text, the updated cache, and the number of
`requests.post` calls issued.  On `okGood` the content is `.strip()`ed
(line 63) and written into the cache (lines 73-75) before returning; on
`okBad` the original text is returned at once (line 66); on an exception or
error status the loop retries while attempts remain, else returns the
original text (lines 84 and 92). -/
def tryAttempts (net : Nat → ApiResp) (text fileMd5 textMd5 : String) (cache : Cache) :
    Nat → Nat → String × Cache × Nat
  | 0, _ => (text, cache, 0)
  | k + 1, i =>
    match net i with
    | ApiResp.okGood content =>
      let translated := pyStrip content
      (translated, cacheSet cache fileMd5 textMd5 translated, 1)
    | ApiResp.okBad => (text, cache, 1)
    | ApiResp.exn =>
      if k = 0 then (text, cache, 1)
      else
        match tryAttempts net text fileMd5 textMd5 cache k (i + 1) with
        | (t, c, n) => (t, c, n + 1)
    | ApiResp.errStatus =>
      if k = 0 then (text, cache, 1)
      else
        match tryAttempts net text fileMd5 textMd5 cache k (i + 1) with
        | (t, c, n) => (t, c, n + 1)

/-- `translate_text` (translate.py, lines 14-94).  `tmd5` abstracts
`get_text_md5` (an external hashing primitive), `net` abstracts the HTTP
transport.  Returns the result text, the cache after the call, and the
number of network calls issued.  Every Python code path of the function
ends in a `return`, so the embedding is total: the function never raises. -/
def translate_text (tmd5 : String → String) (net : Nat → ApiResp)
    (apiKey apiEndpoint : Option String) (text fileMd5 : String)
    (cache : Cache) (ignoreCache : Bool) : String × Cache × Nat :=
  let textMd5 := tmd5 text
  match ignoreCache, cacheGet cache fileMd5 textMd5 with
  | false, some cached => (cached, cache, 0)
  | _, _ =>
    if !pyTruthy apiKey || !pyTruthy apiEndpoint then (text, cache, 0)
    else tryAttempts net text fileMd5 textMd5 cache 3 0

/-! ## is_formula (text_utils.py, lines 7-15) -/

/-- The formula indicator characters of text_utils.py, line 10. -/
def formulaIndicators : List Char :=
  ['=', '+', '-', '*', '/', '^', '∫', '∑', '∏', '√', '≈', '≠', '≤', '≥']

/-- Worker for `pySplit`: walk the characters, accumulating the current word
reversed. -/
def pySplitGo : List Char → List Char → List String
  | [], acc => if acc = [] then [] else [String.mk acc.reverse]
  | c :: cs, acc =>
    if c.isWhitespace then
      if acc = [] then pySplitGo cs []
      else String.mk acc.reverse :: pySplitGo cs []
    else pySplitGo cs (c :: acc)

/-- Model of Python `text.split()`: split on whitespace runs, dropping empty
pieces. -/
def pySplit (text : String) : List String := pySplitGo text.data []

/-- `is_formula` (text_utils.py, lines 7-15).  The second disjunct models the
float comparison `math_symbols_count / len(text) > 0.05` exactly over `ℚ`
(`0.05` rounds to a float slightly above `1/20`, but both sides agree at
every ratio of small integers that arises here; and for `len(text) = 0`
Python would raise `ZeroDivisionError`, a case never reached from the
pipeline, whose extraction only stores fragments with more than 10
characters). -/
def is_formula (text : String) : Bool :=
  let mathSymbolsCount := (text.toList.filter (fun c => c ∈ formulaIndicators)).length
  let words := (pySplit text).length
  (decide (mathSymbolsCount > 1) && decide (words < 5)) ||
    decide ((mathSymbolsCount : ℚ) / (text.length : ℚ) > 1 / 20)

/-! ## Word wrapping and font-size fitting (translate.py, lines 352-463) -/

/-- `len(' '.join(line))`: the character count of a line of words joined by
single spaces. -/
def joinLen (line : List String) : Nat :=
  (line.map String.length).sum + (line.length - 1)

/-- `' '.join(line)`. -/
def joinSp (line : List String) : String :=
  String.intercalate " " line

/-- The test `len(test_line) * font_size * width_factor < max_width` with
`width_factor = 0.5` (translate.py, lines 389-391 and 449-451): whether a
candidate line fits the bbox width. -/
def lineOk (s : Nat) (maxWidth : ℚ) (line : List String) : Bool :=
  decide ((joinLen line : ℚ) * (s : ℚ) * (1 / 2) < maxWidth)

/-- The fitting test loop for one font size (translate.py, lines 374-417):
walk the words, greedily accumulating a line; when a word no longer fits,
insert the full line (oracle `ins`; an exception makes the size unfit,
lines 395-401), start a new line and advance the vertical cursor by
`font_size + 2`, failing if the cursor moved beyond
`bbox_height - 5` (line 407); finally insert the last line (lines 412-417).
`line` is the accumulated line, `k` the number of line breaks so far, so
the cursor offset `current_y - y` equals `k * (s + 2)`. -/
def testGo (ins : String → Nat → Bool) (p : List String → Bool) (s : Nat) (hlimit : ℚ) :
    List String → List String → Nat → Bool
  | [], line, _ =>
    if line = [] then true else ins (joinSp line) s
  | w :: ws, line, k =>
    if line = [] then testGo ins p s hlimit ws [w] k
    else if p (line ++ [w]) then testGo ins p s hlimit ws (line ++ [w]) k
    else if ins (joinSp line) s then
      if ((k + 1 : Nat) : ℚ) * ((s : ℚ) + 2) > hlimit then false
      else testGo ins p s hlimit ws [w] (k + 1)
    else false

/-- Whether one candidate font size fits a fragment's bbox
(translate.py, lines 355-417): wrap width `bbox[2] - bbox[0] - 4`
(line 377), height limit `bbox[3] - bbox[1] - 5` (line 407). -/
structure Bbox where
  x0 : ℚ
  y0 : ℚ
  x1 : ℚ
  y1 : ℚ
  deriving DecidableEq

/-- The fitting test for one candidate size applied to the translated text
of a fragment. -/
def fitsAt (ins : String → Nat → Bool) (bbox : Bbox) (translated : String) (s : Nat) : Bool :=
  testGo ins (lineOk s (bbox.x1 - bbox.x0 - 4)) s (bbox.y1 - bbox.y0 - 5) (pySplit translated) [] 0

/-- The candidate font sizes tried in order (translate.py, line 355). -/
def candidateSizes : List Nat := [11, 10, 9, 8, 7, 6]

/-- The size-selection loop `for font_size in [11, 10, 9, 8, 7, 6]` with its
`break` on the first fitting size (translate.py, lines 353-426). -/
def bestFontSize (ins : String → Nat → Bool) (bbox : Bbox) (translated : String) : Option Nat :=
  candidateSizes.find? (fun s => fitsAt ins bbox translated s)

/-- One drawing operation emitted onto the destination page. -/
inductive DrawOp where
  | rect (x0 y0 x1 y1 : ℚ)
  | text (x y : ℚ) (line : String) (fontSize : Nat)
  | image (x0 y0 x1 y1 : ℚ)
  deriving DecidableEq

/-- Whether an operation embeds a rasterized bitmap. -/
def DrawOp.isImage : DrawOp → Bool
  | DrawOp.image _ _ _ _ => true
  | _ => false

/-- `fallback_insert_text_as_image` (translate.py, lines 166-251) renders the
wrapped lines onto a white bitmap and embeds it clipped to the bbox.  The
function is defined in the source but has no caller anywhere in the
repository; its effect is summarized as the single image operation it
would insert. -/
def fallback_insert_text_as_image (bbox : Bbox) (_text : String) : DrawOp :=
  DrawOp.image bbox.x0 bbox.y0 bbox.x1 bbox.y1

/-- The commit loop at the winning size (translate.py, lines 436-463): the
same greedy wrap, emitting each full line at
`(bbox[0] + 2, bbox[1] + s + k * (s + 2))` and the last line after the
loop.  There is no height check and no exception handler here: a failing
`insert_text` would propagate, modelled as `Except.error`. -/
def commitGo (ins : String → Nat → Bool) (p : List String → Bool) (s : Nat) (x y0 : ℚ) :
    List String → List String → Nat → Except String (List DrawOp)
  | [], line, k =>
    if line = [] then Except.ok []
    else if ins (joinSp line) s then
      Except.ok [DrawOp.text x (y0 + (k : ℚ) * ((s : ℚ) + 2)) (joinSp line) s]
    else Except.error "insert_text failed"
  | w :: ws, line, k =>
    if line = [] then commitGo ins p s x y0 ws [w] k
    else if p (line ++ [w]) then commitGo ins p s x y0 ws (line ++ [w]) k
    else if ins (joinSp line) s then
      match commitGo ins p s x y0 ws [w] (k + 1) with
      | Except.ok ops =>
        Except.ok (DrawOp.text x (y0 + (k : ℚ) * ((s : ℚ) + 2)) (joinSp line) s :: ops)
      | Except.error e => Except.error e
    else Except.error "insert_text failed"

/-- The translation used for a fragment (translate.py, lines 345-350):
the cached translation if present, else the original text with a warning. -/
def translatedOf (tmd5 : String → String) (cache : Cache) (fileMd5 text : String) : String :=
  match cacheGet cache fileMd5 (tmd5 text) with
  | some t => t
  | none => text

/-- The per-fragment body of the paragraph loop of
`create_clean_translated_pdf` (translate.py, lines 338-465): skip formulas
(line 340); look up the translation (lines 345-350); find the best font
size (lines 353-426); if one fits, cover the bbox with a white rectangle
(line 433) and insert the wrapped lines (lines 436-463); if none fits, only
a warning is printed (line 465).  The returned operations are those the
fragment adds on top of the already-drawn full-page background image. -/
def renderFragment (ins : String → Nat → Bool) (tmd5 : String → String) (cache : Cache)
    (fileMd5 text : String) (bbox : Bbox) : Except String (List DrawOp) :=
  if is_formula text then Except.ok []
  else
    let translated := translatedOf tmd5 cache fileMd5 text
    match bestFontSize ins bbox translated with
    | none => Except.ok []
    | some s =>
      match commitGo ins (lineOk s (bbox.x1 - bbox.x0 - 4)) s (bbox.x0 + 2)
          (bbox.y0 + (s : ℚ)) (pySplit translated) [] 0 with
      | Except.ok ops => Except.ok (DrawOp.rect bbox.x0 bbox.y0 bbox.x1 bbox.y1 :: ops)
      | Except.error e => Except.error e

/-- Line counting for the greedy wrap: the number of lines the wrap loop
produces from the remaining words `ws` with accumulated line `line`.  It
follows exactly the branch structure of `testGo`/`commitGo` and is used to
characterise the fitting test. -/
def countGo (p : List String → Bool) : List String → List String → Nat
  | [], line => if line = [] then 0 else 1
  | w :: ws, line =>
    if line = [] then countGo p ws [w]
    else if p (line ++ [w]) then countGo p ws (line ++ [w])
    else 1 + countGo p ws [w]

/-- A line predicate is segment-monotone when a line that fits keeps fitting
after dropping a leading group of words.  `lineOk s maxWidth` is
segment-monotone because joining fewer words is never longer. -/
def SegMono (q : List String → Bool) : Prop :=
  ∀ a b, q (a ++ b) = true → q b = true

/-! ## is_image_based_pdf (ocr.py, lines 14-47) -/

/-- The per-page block counts the classifier reads: the number of text
blocks (`block[6] == 0`, ocr.py line 32) and the number of images
(`len(page.get_images(full=True))`, line 35). -/
structure PdfPage where
  textBlocks : Nat
  imageBlocks : Nat
  deriving DecidableEq

/-- `is_image_based_pdf` (ocr.py, lines 14-47).  Iterates
`range(min(total_pages, 5))`, adds `t / (t + i)` for pages with at least
one block (lines 38-40), and finally divides by `min(total_pages, 5)`
(line 43): for a document with zero pages that denominator is zero and
Python raises `ZeroDivisionError`, modelled as `Except.error ()`. -/
def is_image_based_pdf (pages : List PdfPage) (threshold : ℚ) : Except Unit Bool :=
  let sampled := pages.take 5
  let textContentSum : ℚ := sampled.foldl
    (fun acc pg =>
      if pg.textBlocks + pg.imageBlocks > 0 then
        acc + (pg.textBlocks : ℚ) / ((pg.textBlocks : ℚ) + (pg.imageBlocks : ℚ))
      else acc) 0
  let d : Nat := min pages.length 5
  if d = 0 then Except.error ()
  else Except.ok (decide (textContentSum / (d : ℚ) < threshold))

/-- The per-page average the specification describes: ratio
`t / (t + i)` per sampled page, `0` for a blockless page, averaged over the
sampled pages.  Stated from the spec's words, to be compared with
`is_image_based_pdf`. -/
def specAvgTextBlockShare (pages : List PdfPage) : ℚ :=
  (((pages.take 5).map
    (fun pg =>
      if pg.textBlocks + pg.imageBlocks > 0 then
        (pg.textBlocks : ℚ) / ((pg.textBlocks : ℚ) + (pg.imageBlocks : ℚ))
      else 0)).sum) / ((min pages.length 5 : Nat) : ℚ)

/-! ## The paragraph store round trip (main.py, lines 70-77 and 109-116) -/

/-- Extracted fragments per page, as held in memory: an insertion-ordered
mapping from page number to the page's `(text, bbox)` list. -/
abbrev Store := List (Nat × List (String × Bbox))

/-- The decimal digits of `n`, most significant first: the digits of Python
`str(n)` for a nonnegative integer. -/
def pyDigits (n : Nat) : List Nat :=
  if n < 10 then [n] else pyDigits (n / 10) ++ [n % 10]
termination_by n
decreasing_by exact Nat.div_lt_self (by omega) (by omega)

/-- A decimal digit as a character. -/
def digitChar (d : Nat) : Char := Char.ofNat (48 + d)

/-- Model of Python `str(page_num)` for the nonnegative page numbers
(main.py, line 74). -/
def pyStrOfNat (n : Nat) : String := String.mk ((pyDigits n).map digitChar)

/-- Model of Python `int(page_num_str)` (main.py, line 114) on the digit
strings produced by `str`: parse an all-digit string (sign and surrounding
whitespace never occur in the stored keys). -/
def pyIntOfStr (s : String) : Option Nat :=
  if s.data ≠ [] ∧ s.data.all Char.isDigit then
    some (s.data.foldl (fun a c => 10 * a + (c.toNat - 48)) 0)
  else none

/-- `list(bbox)` (main.py, line 75). -/
def bboxToList (b : Bbox) : List ℚ := [b.x0, b.y0, b.x1, b.y1]

/-- `tuple(bbox)` (main.py, line 115) for the four-element lists written by
`save`. -/
def bboxOfList : List ℚ → Option Bbox
  | [a, b, c, d] => some ⟨a, b, c, d⟩
  | _ => none

/-- The serialized form written to `<hash>_paragraphs.json`: JSON object
keys in insertion order, page values as `(text, [x0,y0,x1,y1])` pairs.
Python's `json.dump` / `json.load` round-trip this shape losslessly
(`ensure_ascii=False` strings, shortest-round-trip floats), so the JSON
text itself is not modelled. -/
abbrev StoreFile := List (String × List (String × List ℚ))

/-- The serialization loop of the `translate` command (main.py, lines 70-77):
`serializable_data[str(page_num)] = [(text, list(bbox)) for ...]`. -/
def saveStore (st : Store) : StoreFile :=
  st.map (fun e => (pyStrOfNat e.1, e.2.map (fun fr => (fr.1, bboxToList fr.2))))

/-- The deserialization loop of the `regenerate` command (main.py,
lines 109-116): `paragraphs_by_page[int(page_num_str)] = [(text,
tuple(bbox)) for ...]`, `none` when a key or bbox does not parse back. -/
def loadStore (data : StoreFile) : Option Store :=
  data.mapM (fun e =>
    match pyIntOfStr e.1, e.2.mapM (fun fr => (bboxOfList fr.2).map (fun b => (fr.1, b))) with
    | some pg, some frs => some (pg, frs)
    | _, _ => none)

/-! ## The regenerate command paths (main.py, lines 102-133) -/

/-- A single apostrophe character, written via its code point. -/
def apos : String := String.singleton (Char.ofNat 39)

/-- `f"{file_md5}_paragraphs.json"` (main.py, line 104). -/
def paragraphsFileName (fileMd5 : String) : String := fileMd5 ++ "_paragraphs.json"

/-- The exact message printed when the paragraphs file is missing
(main.py, line 106). -/
def missingParagraphsMsg (fileMd5 : String) : String :=
  "Error: Paragraphs file " ++ paragraphsFileName fileMd5 ++
    " not found. Run " ++ apos ++ "translate" ++ apos ++ " command first."

/-- Observable outcome of one `regenerate` invocation.  `exitCode` is the
process exit status: Python's `main()` ends in a plain `return` on the
missing-file path (main.py, line 107), so the interpreter exits with
status 0. -/
structure RunOutcome where
  exitCode : Nat
  messages : List String
  pdfWritten : Bool
  deriving DecidableEq

/-- The `regenerate` branch of `main` (main.py, lines 102-133) at the
granularity of claim C8: if `<hash>_paragraphs.json` does not exist, print
the error and return (no PDF written, exit status 0); otherwise the
command proceeds to the rendering calls and writes the output PDF. -/
def regenerateMain (fileMd5 : String) (storedParagraphs : Option Store) : RunOutcome :=
  match storedParagraphs with
  | none =>
    { exitCode := 0
      messages := [missingParagraphsMsg fileMd5]
      pdfWritten := false }
  | some _ =>
    { exitCode := 0, messages := [], pdfWritten := true }

/-! ## The image-based regeneration path (main.py, lines 119-123 and
ocr.py, lines 127-272) -/

/-- The `TypeError`s the image-based regeneration path raises. -/
inductive OcrErr where
  /-- `page_num < start_page` with `start_page` bound to the string
  `file_md5`: main.py, line 121-123 passes `translation_cache, file_md5,
  args.font` into the parameters `debug_mode, start_page, end_page` of
  `create_translated_pdf_ocr_approach` (ocr.py, lines 127-128), so when the
  cache dictionary is truthy the page loop compares an `int` with a `str`
  (ocr.py, line 173). -/
  | intStrCompare
  /-- `translate_text(text)` (ocr.py, line 210) omits the required
  positional arguments `file_md5` and `cache` of `translate_text`
  (translate.py, line 14). -/
  | translateArity
  deriving DecidableEq

/-- The page loop of `create_translated_pdf_ocr_approach` as invoked from
`main` (ocr.py, lines 172-266 under the argument swap described in
`OcrErr`): `parsPerPage` lists the number of stored paragraphs of each
page; `cacheTruthy` is the truthiness of the `translation_cache` dict that
landed in `debug_mode`.  A truthy cache hits the `int < str` comparison on
every page; otherwise any page with at least one paragraph reaches
`translate_text(text)` and raises. -/
def ocrPageLoop (cacheTruthy : Bool) : List Nat → Except OcrErr Unit
  | [] => Except.ok ()
  | nPars :: rest =>
    if cacheTruthy then Except.error OcrErr.intStrCompare
    else if nPars = 0 then ocrPageLoop cacheTruthy rest
    else Except.error OcrErr.translateArity

/-- `create_translated_pdf_ocr_approach` as invoked by the `regenerate`
command on an image-based document (main.py, lines 119-123).  Returns
`ok true` when an output PDF is written, `ok false` when the function
returns early because no Cyrillic-capable font path exists (ocr.py,
lines 155-161), and the raised `TypeError` otherwise. -/
def ocrRegenerateViaMain (fontFound cacheTruthy : Bool) (parsPerPage : List Nat) :
    Except OcrErr Bool :=
  if !fontFound then Except.ok false
  else
    match ocrPageLoop cacheTruthy parsPerPage with
    | Except.ok _ => Except.ok true
    | Except.error e => Except.error e

/-! ## The per-paragraph step of the translate command (main.py, 87-96) -/

/-- The body of the paragraph loop of the `translate` command (main.py,
lines 87-96): call `translate_text`, then unconditionally store the
returned value under `(file_md5, md5(text))`.  Returns the stored value
and the cache after the step. -/
def mainParagraphStep (tmd5 : String → String) (net : Nat → ApiResp)
    (apiKey apiEndpoint : Option String) (text fileMd5 : String)
    (cache : Cache) (ignoreCache : Bool) : String × Cache :=
  match translate_text tmd5 net apiKey apiEndpoint text fileMd5 cache ignoreCache with
  | (translated, cache1, _) => (translated, cacheSet cache1 fileMd5 (tmd5 text) translated)

/-! ## Association-list and cache lemmas -/

theorem alFind_alSet_self (k : String) (v : α) (l : List (String × α)) :
    alFind k (alSet k v l) = some v := by
  induction l with
  | nil => simp [alSet, alFind]
  | cons e rest ih =>
    obtain ⟨k', v'⟩ := e
    by_cases h : k' = k
    · simp [alSet, alFind, h]
    · simp [alSet, alFind, h, ih]

theorem cacheGet_cacheSet_self (c : Cache) (f h v : String) :
    cacheGet (cacheSet c f h v) f h = some v := by
  unfold cacheSet
  cases hf : alFind f c with
  | none => simp [cacheGet, alFind_alSet_self]
  | some inner => simp [cacheGet, alFind_alSet_self]

/-! ## translate_text lemmas -/

theorem tryAttempts_no_good (net : Nat → ApiResp) (text fileMd5 textMd5 : String) (cache : Cache) :
    ∀ (k i : Nat), (∀ j, j < k → ∀ c, net (i + j) ≠ ApiResp.okGood c) →
      (tryAttempts net text fileMd5 textMd5 cache k i).1 = text ∧
      (tryAttempts net text fileMd5 textMd5 cache k i).2.1 = cache := by
  intro k
  induction k with
  | zero => intro i _; exact ⟨rfl, rfl⟩
  | succ k ih =>
    intro i hnet
    have h0 : ∀ c, net i ≠ ApiResp.okGood c := by
      intro c
      have := hnet 0 (Nat.succ_pos k) c
      simpa using this
    cases hn : net i with
    | okGood c => exact absurd hn (h0 c)
    | okBad => simp [tryAttempts, hn]
    | exn =>
      by_cases hk : k = 0
      · simp [tryAttempts, hn, hk]
      · have ih1 := ih (i + 1) (by
          intro j hj c
          have := hnet (j + 1) (by omega) c
          simpa [Nat.add_assoc, Nat.add_comm 1 j] using this)
        simp only [tryAttempts, hn, if_neg hk]
        exact ⟨by simp [ih1.1], by simp [ih1.2]⟩
    | errStatus =>
      by_cases hk : k = 0
      · simp [tryAttempts, hn, hk]
      · have ih1 := ih (i + 1) (by
          intro j hj c
          have := hnet (j + 1) (by omega) c
          simpa [Nat.add_assoc, Nat.add_comm 1 j] using this)
        simp only [tryAttempts, hn, if_neg hk]
        exact ⟨by simp [ih1.1], by simp [ih1.2]⟩

theorem translate_text_miss (tmd5 : String → String) (net : Nat → ApiResp)
    (apiKey apiEndpoint : Option String) (text fileMd5 : String) (cache : Cache)
    (ignoreCache : Bool)
    (hmiss : ignoreCache = true ∨ cacheGet cache fileMd5 (tmd5 text) = none) :
    translate_text tmd5 net apiKey apiEndpoint text fileMd5 cache ignoreCache =
      (if !pyTruthy apiKey || !pyTruthy apiEndpoint then (text, cache, 0)
       else tryAttempts net text fileMd5 (tmd5 text) cache 3 0) := by
  rcases hmiss with h | h
  · subst h; simp [translate_text]
  · cases ignoreCache with
    | false => simp [translate_text, h]
    | true => simp [translate_text]

theorem translate_text_fail (tmd5 : String → String) (net : Nat → ApiResp)
    (apiKey apiEndpoint : Option String) (text fileMd5 : String) (cache : Cache)
    (ignoreCache : Bool)
    (hmiss : ignoreCache = true ∨ cacheGet cache fileMd5 (tmd5 text) = none)
    (hnet : ∀ i, i < 3 → ∀ c, net i ≠ ApiResp.okGood c) :
    (translate_text tmd5 net apiKey apiEndpoint text fileMd5 cache ignoreCache).1 = text ∧
    (translate_text tmd5 net apiKey apiEndpoint text fileMd5 cache ignoreCache).2.1 = cache := by
  rw [translate_text_miss tmd5 net apiKey apiEndpoint text fileMd5 cache ignoreCache hmiss]
  by_cases hcfg : (!pyTruthy apiKey || !pyTruthy apiEndpoint) = true
  · simp [hcfg]
  · have := tryAttempts_no_good net text fileMd5 (tmd5 text) cache 3 0 (by
      intro j hj c
      simpa using hnet j hj c)
    simp only [Bool.not_eq_true] at hcfg
    simp [hcfg, this.1, this.2]

theorem translate_text_hit (tmd5 : String → String) (net : Nat → ApiResp)
    (apiKey apiEndpoint : Option String) (text fileMd5 : String) (cache : Cache) (v : String)
    (hhit : cacheGet cache fileMd5 (tmd5 text) = some v) :
    translate_text tmd5 net apiKey apiEndpoint text fileMd5 cache false = (v, cache, 0) := by
  simp [translate_text, hhit]

theorem tryAttempts_first_good (net : Nat → ApiResp) (text fileMd5 textMd5 : String)
    (cache : Cache) :
    ∀ (m k i : Nat) (c : String), m < k →
      (∀ j, j < m → net (i + j) = ApiResp.exn ∨ net (i + j) = ApiResp.errStatus) →
      net (i + m) = ApiResp.okGood c →
      tryAttempts net text fileMd5 textMd5 cache k i =
        (pyStrip c, cacheSet cache fileMd5 textMd5 (pyStrip c), m + 1) := by
  intro m
  induction m with
  | zero =>
    intro k i c hk _ hgood
    obtain ⟨k', rfl⟩ : ∃ k', k = k' + 1 := ⟨k - 1, by omega⟩
    simp only [Nat.add_zero] at hgood
    simp [tryAttempts, hgood]
  | succ m ih =>
    intro k i c hk hprev hgood
    obtain ⟨k', rfl⟩ : ∃ k', k = k' + 1 := ⟨k - 1, by omega⟩
    have hk' : k' ≠ 0 := by omega
    have hrec := ih k' (i + 1) c (by omega)
      (by
        intro j hj
        have := hprev (j + 1) (by omega)
        simpa [Nat.add_assoc, Nat.add_comm 1 j] using this)
      (by
        have : i + 1 + m = i + (m + 1) := by omega
        rw [this]; exact hgood)
    have h0 := hprev 0 (Nat.succ_pos m)
    simp only [Nat.add_zero] at h0
    rcases h0 with h0 | h0
    · simp [tryAttempts, h0, if_neg hk', hrec]
    · simp [tryAttempts, h0, if_neg hk', hrec]

/-! ## Claim C3 -/

/-- C3: for every input text and document id, when all retry attempts are
exhausted (transport error or non-success status on every attempt) or a 200
response has a malformed or empty body — i.e. no attempt the loop can reach
returns a well-formed 200 — `translate_text` does not raise (the embedding
is total and this theorem evaluates it), returns the original source text
unchanged, and leaves the cache dictionary unmodified. -/
theorem C3_failure_degrades_to_passthrough (tmd5 : String → String) (net : Nat → ApiResp)
    (apiKey apiEndpoint : Option String) (text fileMd5 : String) (cache : Cache)
    (ignoreCache : Bool)
    (hmiss : ignoreCache = true ∨ cacheGet cache fileMd5 (tmd5 text) = none)
    (hnet : ∀ i, i < 3 → ∀ c, net i ≠ ApiResp.okGood c) :
    (translate_text tmd5 net apiKey apiEndpoint text fileMd5 cache ignoreCache).1 = text ∧
    (translate_text tmd5 net apiKey apiEndpoint text fileMd5 cache ignoreCache).2.1 = cache :=
  translate_text_fail tmd5 net apiKey apiEndpoint text fileMd5 cache ignoreCache hmiss hnet

/-- C3 witness: a concrete run in which every attempt raises a transport
error returns the original text with the cache untouched. -/
theorem C3_witness :
    (translate_text (fun s => s) (fun _ => ApiResp.exn) (some "k") (some "e")
      "hello" "f" [] false).1 = "hello" ∧
    (translate_text (fun s => s) (fun _ => ApiResp.exn) (some "k") (some "e")
      "hello" "f" [] false).2.1 = [] :=
  C3_failure_degrades_to_passthrough (fun s => s) (fun _ => ApiResp.exn) (some "k") (some "e")
    "hello" "f" [] false (Or.inr rfl) (fun _ _ _ h => ApiResp.noConfusion h)

/-! ## Claim C4 -/

/-- C4 counterexample: with an empty cache, a first run whose first attempt
raises and whose second attempt succeeds issues 2 network calls; the second
cache-enabled run for the same text and document then issues 0 calls, so
translating the same text twice issues 2 network calls in total, not
"exactly one" as claimed. -/
theorem C4_counterexample :
    (translate_text (fun s => s) (fun i => if i = 0 then ApiResp.exn else ApiResp.okGood "T")
      (some "k") (some "e") "hello" "f" [] false).2.2 = 2 ∧
    (translate_text (fun s => s) (fun _ => ApiResp.exn) (some "k") (some "e") "hello" "f"
      (translate_text (fun s => s) (fun i => if i = 0 then ApiResp.exn else ApiResp.okGood "T")
        (some "k") (some "e") "hello" "f" [] false).2.1 false).2.2 = 0 :=
  ⟨rfl, rfl⟩

/-- C4 (amended): a cache hit without bypass returns the cached value
immediately, with no network call and no cache mutation; on a miss whose
`m`-th attempt (`m < 3`, after `m` retryable failures) is the first
success, the stripped result is written into the cache under
`(file_md5, md5(text))` before returning and `m + 1` network calls are
issued; consequently a second cache-enabled run for the same text and
document issues zero further network calls and returns that stored value
(rather than exactly one call total across both runs, which holds only
when the first run's first attempt succeeds). -/
theorem C4_cache_hit_write_and_idempotence (tmd5 : String → String) (net net2 : Nat → ApiResp)
    (apiKey apiEndpoint apiKey2 apiEndpoint2 : Option String)
    (text fileMd5 : String) (cache : Cache) :
    (∀ v, cacheGet cache fileMd5 (tmd5 text) = some v →
      translate_text tmd5 net apiKey apiEndpoint text fileMd5 cache false = (v, cache, 0)) ∧
    (∀ m c, cacheGet cache fileMd5 (tmd5 text) = none → m < 3 →
      (∀ j, j < m → net j = ApiResp.exn ∨ net j = ApiResp.errStatus) →
      net m = ApiResp.okGood c →
      pyTruthy apiKey = true → pyTruthy apiEndpoint = true →
      translate_text tmd5 net apiKey apiEndpoint text fileMd5 cache false =
        (pyStrip c, cacheSet cache fileMd5 (tmd5 text) (pyStrip c), m + 1)) ∧
    (∀ m c, cacheGet cache fileMd5 (tmd5 text) = none → m < 3 →
      (∀ j, j < m → net j = ApiResp.exn ∨ net j = ApiResp.errStatus) →
      net m = ApiResp.okGood c →
      pyTruthy apiKey = true → pyTruthy apiEndpoint = true →
      translate_text tmd5 net2 apiKey2 apiEndpoint2 text fileMd5
        (translate_text tmd5 net apiKey apiEndpoint text fileMd5 cache false).2.1 false =
        (pyStrip c, (translate_text tmd5 net apiKey apiEndpoint text fileMd5 cache false).2.1, 0)) := by
  have hsucc : ∀ m c, cacheGet cache fileMd5 (tmd5 text) = none → m < 3 →
      (∀ j, j < m → net j = ApiResp.exn ∨ net j = ApiResp.errStatus) →
      net m = ApiResp.okGood c →
      pyTruthy apiKey = true → pyTruthy apiEndpoint = true →
      translate_text tmd5 net apiKey apiEndpoint text fileMd5 cache false =
        (pyStrip c, cacheSet cache fileMd5 (tmd5 text) (pyStrip c), m + 1) := by
    intro m c hmiss hm hprev hgood hk he
    rw [translate_text_miss tmd5 net apiKey apiEndpoint text fileMd5 cache false (Or.inr hmiss)]
    have := tryAttempts_first_good net text fileMd5 (tmd5 text) cache m 3 0 c hm
      (by intro j hj; simpa using hprev j hj) (by simpa using hgood)
    simp [hk, he, this]
  refine ⟨?_, hsucc, ?_⟩
  · intro v hv
    exact translate_text_hit tmd5 net apiKey apiEndpoint text fileMd5 cache v hv
  · intro m c hmiss hm hprev hgood hk he
    rw [hsucc m c hmiss hm hprev hgood hk he]
    exact translate_text_hit tmd5 net2 apiKey2 apiEndpoint2 text fileMd5 _ (pyStrip c)
      (cacheGet_cacheSet_self cache fileMd5 (tmd5 text) (pyStrip c))

/-- C4 witness: concrete instances of all three conjuncts — a hit on a
populated cache returns immediately with 0 calls; a fresh success on an
empty cache stores the stripped result with 1 call; the follow-up run
reuses it with 0 calls. -/
theorem C4_witness :
    translate_text (fun s => s) (fun _ => ApiResp.okGood "T") (some "k") (some "e")
      "hello" "f" [("f", [("hello", "X")])] false = ("X", [("f", [("hello", "X")])], 0) ∧
    translate_text (fun s => s) (fun _ => ApiResp.okGood "T") (some "k") (some "e")
      "hello" "f" [] false = ("T", cacheSet [] "f" "hello" "T", 1) ∧
    translate_text (fun s => s) (fun _ => ApiResp.exn) (some "k") (some "e") "hello" "f"
      (translate_text (fun s => s) (fun _ => ApiResp.okGood "T") (some "k") (some "e")
        "hello" "f" [] false).2.1 false =
      ("T", (translate_text (fun s => s) (fun _ => ApiResp.okGood "T") (some "k") (some "e")
        "hello" "f" [] false).2.1, 0) := by
  have h := C4_cache_hit_write_and_idempotence (fun s => s)
    (fun _ => ApiResp.okGood "T") (fun _ => ApiResp.exn)
    (some "k") (some "e") (some "k") (some "e") "hello" "f" []
  have h2 := C4_cache_hit_write_and_idempotence (fun s => s)
    (fun _ => ApiResp.okGood "T") (fun _ => ApiResp.exn)
    (some "k") (some "e") (some "k") (some "e") "hello" "f" [("f", [("hello", "X")])]
  refine ⟨h2.1 "X" rfl, ?_, ?_⟩
  · have := h.2.1 0 "T" rfl (by omega) (by intro j hj; omega) rfl rfl rfl
    simpa using this
  · have := h.2.2 0 "T" rfl (by omega) (by intro j hj; omega) rfl rfl rfl
    simpa using this

/-! ## Claim C10 -/

/-- C10: after each paragraph of the translate command is processed, the
cache entry keyed by `(file_md5, md5(text))` is unconditionally set to the
value `translate_text` returned; in particular, when translation failed
(no attempt yields a well-formed 200) the stored value is the original
untranslated text, and a later cache-enabled run returns that untranslated
text with zero network calls, i.e. without attempting a fresh
translation. -/
theorem C10_failed_translation_poisons_cache (tmd5 : String → String) (net net2 : Nat → ApiResp)
    (apiKey apiEndpoint apiKey2 apiEndpoint2 : Option String)
    (text fileMd5 : String) (cache : Cache) (ignoreCache : Bool) :
    cacheGet (mainParagraphStep tmd5 net apiKey apiEndpoint text fileMd5 cache ignoreCache).2
        fileMd5 (tmd5 text) =
      some (mainParagraphStep tmd5 net apiKey apiEndpoint text fileMd5 cache ignoreCache).1 ∧
    ((ignoreCache = true ∨ cacheGet cache fileMd5 (tmd5 text) = none) →
      (∀ i, i < 3 → ∀ c, net i ≠ ApiResp.okGood c) →
      (mainParagraphStep tmd5 net apiKey apiEndpoint text fileMd5 cache ignoreCache).1 = text ∧
      translate_text tmd5 net2 apiKey2 apiEndpoint2 text fileMd5
          (mainParagraphStep tmd5 net apiKey apiEndpoint text fileMd5 cache ignoreCache).2 false =
        (text, (mainParagraphStep tmd5 net apiKey apiEndpoint text fileMd5 cache ignoreCache).2, 0)) := by
  constructor
  · unfold mainParagraphStep
    cases htr : translate_text tmd5 net apiKey apiEndpoint text fileMd5 cache ignoreCache with
    | mk t rest =>
      obtain ⟨c1, n⟩ := rest
      simpa using cacheGet_cacheSet_self c1 fileMd5 (tmd5 text) t
  · intro hmiss hnet
    have hfail := translate_text_fail tmd5 net apiKey apiEndpoint text fileMd5 cache
      ignoreCache hmiss hnet
    have hstep1 : (mainParagraphStep tmd5 net apiKey apiEndpoint text fileMd5 cache ignoreCache).1
        = text := by
      unfold mainParagraphStep
      cases htr : translate_text tmd5 net apiKey apiEndpoint text fileMd5 cache ignoreCache with
      | mk t rest =>
        obtain ⟨c1, n⟩ := rest
        rw [htr] at hfail
        simpa using hfail.1
    refine ⟨hstep1, ?_⟩
    have hhit : cacheGet (mainParagraphStep tmd5 net apiKey apiEndpoint text fileMd5
        cache ignoreCache).2 fileMd5 (tmd5 text) = some text := by
      unfold mainParagraphStep
      cases htr : translate_text tmd5 net apiKey apiEndpoint text fileMd5 cache ignoreCache with
      | mk t rest =>
        obtain ⟨c1, n⟩ := rest
        rw [htr] at hfail
        have ht : t = text := by simpa using hfail.1
        rw [ht]
        simpa using cacheGet_cacheSet_self c1 fileMd5 (tmd5 text) text
    exact translate_text_hit tmd5 net2 apiKey2 apiEndpoint2 text fileMd5 _ text hhit

/-- C10 witness: with an empty cache and a network that always raises, the
paragraph step stores the original text, and a follow-up cache-enabled
lookup returns the untranslated text with zero network calls. -/
theorem C10_witness :
    cacheGet (mainParagraphStep (fun s => s) (fun _ => ApiResp.exn) (some "k") (some "e")
        "hello" "f" [] false).2 "f" "hello" =
      some (mainParagraphStep (fun s => s) (fun _ => ApiResp.exn) (some "k") (some "e")
        "hello" "f" [] false).1 ∧
    (mainParagraphStep (fun s => s) (fun _ => ApiResp.exn) (some "k") (some "e")
        "hello" "f" [] false).1 = "hello" ∧
    translate_text (fun s => s) (fun _ => ApiResp.exn) (some "k") (some "e") "hello" "f"
        (mainParagraphStep (fun s => s) (fun _ => ApiResp.exn) (some "k") (some "e")
          "hello" "f" [] false).2 false =
      ("hello", (mainParagraphStep (fun s => s) (fun _ => ApiResp.exn) (some "k") (some "e")
        "hello" "f" [] false).2, 0) := by
  have h := C10_failed_translation_poisons_cache (fun s => s)
    (fun _ => ApiResp.exn) (fun _ => ApiResp.exn)
    (some "k") (some "e") (some "k") (some "e") "hello" "f" [] false
  have h2 := h.2 (Or.inr rfl) (fun _ _ c hc => ApiResp.noConfusion hc)
  exact ⟨h.1, h2.1, h2.2⟩

/-! ## Claim C5 -/

/-- C5: the image-based regeneration path is unreachable as shipped: the
`regenerate` command on an image-based document raises a `TypeError` before
drawing anything.  With an untruthy (empty) translation cache, the first
page holding a stored paragraph reaches `translate_text(text)`, which omits
two required positional arguments; with a truthy cache, the page loop
compares the integer page index against the string `file_md5` that `main`
passed into the `start_page` parameter.  The claimed background, white
rectangles, fixed 11pt wrapped text and ellipsis are never drawn. -/
theorem C5_ocr_regenerate_raises_type_error :
    ocrRegenerateViaMain true false [1] = Except.error OcrErr.translateArity ∧
    ocrRegenerateViaMain true true [1] = Except.error OcrErr.intStrCompare :=
  ⟨rfl, rfl⟩

/-! ## Claim C6 -/

/-- C6: the classifier agrees with the specification's average on every
document with at least one page — a page with 1 text block and 3 images
gives average ratio `1/4 = 0.25 < 0.3` and the document is classified
image-based — but for a document with 0 pages the final division
`text_content_ratio / min(total_pages, 5)` has denominator 0 and Python
raises `ZeroDivisionError` (`Except.error ()`), contradicting the claim
that it never divides by zero for 0-page documents. -/
theorem C6_classifier_divides_by_zero_on_empty :
    is_image_based_pdf [] (3 / 10) = Except.error () ∧
    is_image_based_pdf [⟨1, 3⟩] (3 / 10) = Except.ok true ∧
    is_image_based_pdf [⟨1, 1⟩] (3 / 10) = Except.ok false := by
  refine ⟨rfl, ?_, ?_⟩
  · norm_num [is_image_based_pdf]
  · norm_num [is_image_based_pdf]

/-! ## Claim C8 -/

/-- C8 counterexample: at a concrete document hash with no stored
paragraphs file, the `regenerate` invocation terminates with process exit
status 0 — Python's `main()` just `return`s — refuting the claimed
non-zero-equivalent termination status (the message and the absence of an
output PDF do hold). -/
theorem C8_counterexample :
    (regenerateMain "d41d8cd9" none).exitCode = 0 ∧
    (regenerateMain "d41d8cd9" none).pdfWritten = false :=
  ⟨rfl, rfl⟩

/-- C8 (amended): when the regenerate command is invoked and the
`<hash>_paragraphs.json` file does not exist, the program emits exactly one
error message naming the missing file and instructing the user to run the
translate command first, writes no output PDF, and terminates that
invocation early — but with process exit status 0, not a non-zero
status. -/
theorem C8_missing_paragraphs_file_behaviour (fileMd5 : String) :
    (regenerateMain fileMd5 none).messages =
      ["Error: Paragraphs file " ++ fileMd5 ++ "_paragraphs.json not found. Run " ++
        apos ++ "translate" ++ apos ++ " command first."] ∧
    (regenerateMain fileMd5 none).pdfWritten = false ∧
    (regenerateMain fileMd5 none).exitCode = 0 := by
  refine ⟨?_, rfl, rfl⟩
  simp [regenerateMain, missingParagraphsMsg, paragraphsFileName, String.append_assoc]

/-! ## Claim C7: paragraph store round trip -/

theorem pyDigits_ne_nil (n : Nat) : pyDigits n ≠ [] := by
  rw [pyDigits]
  split
  · simp
  · simp

theorem pyDigits_lt_ten (n : Nat) : ∀ d ∈ pyDigits n, d < 10 := by
  induction n using Nat.strong_induction_on with
  | _ n ih =>
    rw [pyDigits]
    split
    · intro d hd
      simp only [List.mem_singleton] at hd
      omega
    · intro d hd
      rcases List.mem_append.1 hd with h | h
      · exact ih (n / 10) (Nat.div_lt_self (by omega) (by omega)) d h
      · simp only [List.mem_singleton] at h
        subst h
        exact Nat.mod_lt n (by omega)

theorem pyDigits_foldl (n : Nat) :
    ∀ a : Nat, (pyDigits n).foldl (fun acc d => 10 * acc + d) a =
      a * 10 ^ (pyDigits n).length + n := by
  induction n using Nat.strong_induction_on with
  | _ n ih =>
    intro a
    rw [pyDigits]
    split
    · simp [Nat.pow_succ]
      omega
    · rename_i h
      rw [List.foldl_append, List.length_append]
      rw [ih (n / 10) (Nat.div_lt_self (by omega) (by omega)) a]
      simp only [List.foldl_cons, List.foldl_nil, List.length_singleton]
      rw [Nat.pow_succ]
      have hmod := Nat.div_add_mod n 10
      have hlt := Nat.mod_lt n (show 0 < 10 by omega)
      ring_nf
      omega

theorem digitChar_isDigit (d : Nat) (hd : d < 10) : (digitChar d).isDigit = true := by
  interval_cases d <;> decide

theorem digitChar_toNat (d : Nat) (hd : d < 10) : (digitChar d).toNat = 48 + d := by
  interval_cases d <;> decide

theorem foldl_eq_of_mem_eq {α β : Type} (l : List α) (f g : β → α → β) :
    (∀ b a, a ∈ l → f b a = g b a) → ∀ b, l.foldl f b = l.foldl g b := by
  induction l with
  | nil => intro _ b; rfl
  | cons x xs ih =>
    intro h b
    simp only [List.foldl_cons]
    rw [h b x (List.mem_cons_self x xs)]
    exact ih (fun b a ha => h b a (List.mem_cons_of_mem x ha)) _

theorem pyIntOfStr_pyStrOfNat (n : Nat) : pyIntOfStr (pyStrOfNat n) = some n := by
  have hne : (pyDigits n).map digitChar ≠ [] := by
    intro h
    exact pyDigits_ne_nil n (List.map_eq_nil_iff.1 h)
  have hdig : ((pyDigits n).map digitChar).all Char.isDigit = true := by
    rw [List.all_eq_true]
    intro c hc
    rcases List.mem_map.1 hc with ⟨d, hd, rfl⟩
    exact digitChar_isDigit d (pyDigits_lt_ten n d hd)
  unfold pyIntOfStr pyStrOfNat
  simp only [String.data]
  rw [if_pos ⟨hne, hdig⟩]
  congr 1
  rw [List.foldl_map]
  rw [foldl_eq_of_mem_eq (pyDigits n) _ (fun acc d => 10 * acc + d)
    (by
      intro b a ha
      simp only [digitChar_toNat a (pyDigits_lt_ten n a ha)]
      omega) 0]
  rw [pyDigits_foldl n 0]
  omega

theorem bboxOfList_bboxToList (b : Bbox) : bboxOfList (bboxToList b) = some b := by
  cases b
  rfl

theorem mapM_map_roundtrip {α β : Type} (f : α → β) (g : β → Option α) (l : List α)
    (h : ∀ a ∈ l, g (f a) = some a) : (l.map f).mapM g = some l := by
  induction l with
  | nil => rfl
  | cons x xs ih =>
    rw [List.map_cons, List.mapM_cons]
    rw [h x (List.mem_cons_self x xs), ih (fun a ha => h a (List.mem_cons_of_mem x ha))]
    rfl

/-- C7: for every mapping from page indices to lists of `(text, bbox)`
fragments, saving it to the paragraphs JSON file and loading it back yields
a mapping equal in page indices, per-page fragment ordering, fragment text,
and bbox coordinates (exactly: ℚ models the lossless float round trip of
Python's json module). -/
theorem C7_store_round_trip (st : Store) : loadStore (saveStore st) = some st := by
  unfold loadStore saveStore
  apply mapM_map_roundtrip
  intro e _
  obtain ⟨pg, frs⟩ := e
  simp only
  rw [pyIntOfStr_pyStrOfNat pg]
  rw [mapM_map_roundtrip (fun fr => (fr.1, bboxToList fr.2))
    (fun fr => (bboxOfList fr.2).map (fun b => (fr.1, b))) frs
    (by
      intro a _
      obtain ⟨t, b⟩ := a
      simp [bboxOfList_bboxToList])]

/-! ## Claim C9: fitting monotonicity -/

theorem countGo_pos (p : List String → Bool) :
    ∀ (ws line : List String), line ≠ [] → 1 ≤ countGo p ws line := by
  intro ws
  induction ws with
  | nil => intro line hl; simp [countGo, hl]
  | cons w ws' ih =>
    intro line hl
    simp only [countGo, if_neg hl]
    by_cases hp : p (line ++ [w]) = true
    · simpa [hp] using ih (line ++ [w]) (by simp)
    · simp [hp]

theorem countGo_shift_pair (q : List String → Bool) (hq : SegMono q) :
    ∀ ws : List String,
      (∀ a b, a ≠ [] → b ≠ [] → (∀ u, q (a ++ u) = true → q (b ++ u) = true) →
        countGo q ws a ≤ 1 + countGo q ws b) ∧
      (∀ c d, c ≠ [] → d ≠ [] → (∀ u, q (d ++ u) = true → q (c ++ u) = true) →
        countGo q ws c ≤ countGo q ws d) := by
  intro ws
  induction ws with
  | nil =>
    constructor
    · intro a b ha hb _
      simp [countGo, ha, hb]
    · intro c d hc hd _
      simp [countGo, hc, hd]
  | cons w ws' ih =>
    obtain ⟨ih1, ih2⟩ := ih
    constructor
    · intro a b ha hb hab
      simp only [countGo, if_neg ha, if_neg hb]
      by_cases hqa : q (a ++ [w]) = true
      · have hqb : q (b ++ [w]) = true := hab [w] hqa
        simp only [hqa, hqb, if_true]
        exact ih1 (a ++ [w]) (b ++ [w]) (by simp) (by simp) (by
          intro u hu
          rw [List.append_assoc] at hu ⊢
          exact hab ([w] ++ u) hu)
      · simp only [hqa, Bool.false_eq_true, if_false]
        by_cases hqb : q (b ++ [w]) = true
        · simp only [hqb, if_true]
          have h2 := ih2 [w] (b ++ [w]) (by simp) (by simp) (by
            intro u hu
            rw [List.append_assoc] at hu
            exact hq b ([w] ++ u) hu)
          omega
        · simp only [hqb, Bool.false_eq_true, if_false]
          omega
    · intro c d hc hd hcd
      simp only [countGo, if_neg hc, if_neg hd]
      by_cases hqd : q (d ++ [w]) = true
      · have hqc : q (c ++ [w]) = true := hcd [w] hqd
        simp only [hqd, hqc, if_true]
        exact ih2 (c ++ [w]) (d ++ [w]) (by simp) (by simp) (by
          intro u hu
          rw [List.append_assoc] at hu ⊢
          exact hcd ([w] ++ u) hu)
      · simp only [hqd, Bool.false_eq_true, if_false]
        by_cases hqc : q (c ++ [w]) = true
        · simp only [hqc, if_true]
          have h1 := ih1 (c ++ [w]) [w] (by simp) (by simp) (by
            intro u hu
            rw [List.append_assoc] at hu
            exact hq c ([w] ++ u) hu)
          omega
        · simp only [hqc, Bool.false_eq_true, if_false]
          omega

theorem countGo_le_of_imp (p q : List String → Bool)
    (hpq : ∀ l, p l = true → q l = true) (hq : SegMono q) :
    ∀ (ws line : List String), line ≠ [] → countGo q ws line ≤ countGo p ws line := by
  intro ws
  induction ws with
  | nil => intro line hl; simp [countGo, hl]
  | cons w ws' ih =>
    intro line hl
    simp only [countGo, if_neg hl]
    by_cases hp : p (line ++ [w]) = true
    · have hq1 : q (line ++ [w]) = true := hpq _ hp
      simp only [hp, hq1, if_true]
      exact ih (line ++ [w]) (by simp)
    · simp only [hp, Bool.false_eq_true, if_false]
      by_cases hq1 : q (line ++ [w]) = true
      · simp only [hq1, if_true]
        have hM1 := (countGo_shift_pair q hq ws').1 (line ++ [w]) [w] (by simp) (by simp) (by
          intro u hu
          rw [List.append_assoc] at hu
          exact hq line ([w] ++ u) hu)
        have hrec := ih [w] (by simp)
        omega
      · simp only [hq1, Bool.false_eq_true, if_false]
        have hrec := ih [w] (by simp)
        omega

theorem countGo_nil_le (p q : List String → Bool)
    (hpq : ∀ l, p l = true → q l = true) (hq : SegMono q) (ws : List String) :
    countGo q ws [] ≤ countGo p ws [] := by
  cases ws with
  | nil => simp [countGo]
  | cons w ws' =>
    simp only [countGo, if_pos rfl]
    exact countGo_le_of_imp p q hpq hq ws' [w] (by simp)

theorem testGo_true_char (p : List String → Bool) (s : Nat) (hlimit : ℚ) :
    ∀ (ws line : List String) (k : Nat), line ≠ [] →
      (testGo (fun _ _ => true) p s hlimit ws line k = true ↔
        (countGo p ws line = 1 ∨
          ((k + (countGo p ws line - 1) : Nat) : ℚ) * ((s : ℚ) + 2) ≤ hlimit)) := by
  intro ws
  induction ws with
  | nil =>
    intro line k hl
    simp [testGo, countGo, hl]
  | cons w ws' ih =>
    intro line k hl
    simp only [testGo, countGo, if_neg hl]
    by_cases hp : p (line ++ [w]) = true
    · simp only [hp, if_true]
      exact ih (line ++ [w]) k (by simp)
    · simp only [hp, Bool.false_eq_true, if_false, if_true]
      have hN : 1 ≤ countGo p ws' [w] := countGo_pos p ws' [w] (by simp)
      set N := countGo p ws' [w] with hNdef
      by_cases hover : ((k + 1 : Nat) : ℚ) * ((s : ℚ) + 2) > hlimit
      · simp only [hover, if_true]
        constructor
        · intro hfalse
          exact absurd hfalse (by simp)
        · rintro (h1 | h2)
          · omega
          · exfalso
            have hk1 : ((k + 1 : Nat) : ℚ) ≤ ((k + (1 + N - 1) : Nat) : ℚ) := by
              have : (k + 1 : Nat) ≤ (k + (1 + N - 1) : Nat) := by omega
              exact_mod_cast this
            have hs2 : (0 : ℚ) ≤ (s : ℚ) + 2 := by positivity
            have := mul_le_mul_of_nonneg_right hk1 hs2
            linarith
      · simp only [hover, if_false]
        rw [ih [w] (k + 1) (by simp)]
        push_neg at hover
        constructor
        · rintro (h1 | h2)
          · right
            have heq : (k + (1 + N - 1) : Nat) = (k + 1 : Nat) := by omega
            rw [heq]
            exact hover
          · right
            have heq : (k + (1 + N - 1) : Nat) = (k + 1 + (N - 1) : Nat) := by omega
            rw [heq]
            exact h2
        · rintro (h1 | h2)
          · omega
          · right
            have heq : (k + 1 + (N - 1) : Nat) = (k + (1 + N - 1) : Nat) := by omega
            rw [heq]
            exact h2

theorem fitsAt_true_char (bbox : Bbox) (translated : String) (s : Nat) :
    fitsAt (fun _ _ => true) bbox translated s = true ↔
      (countGo (lineOk s (bbox.x1 - bbox.x0 - 4)) (pySplit translated) [] ≤ 1 ∨
        ((countGo (lineOk s (bbox.x1 - bbox.x0 - 4)) (pySplit translated) [] - 1 : Nat) : ℚ) *
          ((s : ℚ) + 2) ≤ bbox.y1 - bbox.y0 - 5) := by
  unfold fitsAt
  cases hws : pySplit translated with
  | nil => simp [testGo, countGo]
  | cons w ws' =>
    have hstep : testGo (fun _ _ => true) (lineOk s (bbox.x1 - bbox.x0 - 4)) s
        (bbox.y1 - bbox.y0 - 5) (w :: ws') [] 0 =
        testGo (fun _ _ => true) (lineOk s (bbox.x1 - bbox.x0 - 4)) s
        (bbox.y1 - bbox.y0 - 5) ws' [w] 0 := by
      simp [testGo]
    have hcstep : countGo (lineOk s (bbox.x1 - bbox.x0 - 4)) (w :: ws') [] =
        countGo (lineOk s (bbox.x1 - bbox.x0 - 4)) ws' [w] := by
      simp [countGo]
    rw [hstep, hcstep]
    rw [testGo_true_char (lineOk s (bbox.x1 - bbox.x0 - 4)) s (bbox.y1 - bbox.y0 - 5)
      ws' [w] 0 (by simp)]
    have hN : 1 ≤ countGo (lineOk s (bbox.x1 - bbox.x0 - 4)) ws' [w] :=
      countGo_pos _ ws' [w] (by simp)
    constructor
    · rintro (h1 | h2)
      · left; omega
      · right
        have heq : (0 + (countGo (lineOk s (bbox.x1 - bbox.x0 - 4)) ws' [w] - 1) : Nat) =
            (countGo (lineOk s (bbox.x1 - bbox.x0 - 4)) ws' [w] - 1 : Nat) := by omega
        rwa [heq] at h2
    · rintro (h1 | h2)
      · left; omega
      · right
        have heq : (0 + (countGo (lineOk s (bbox.x1 - bbox.x0 - 4)) ws' [w] - 1) : Nat) =
            (countGo (lineOk s (bbox.x1 - bbox.x0 - 4)) ws' [w] - 1 : Nat) := by omega
        rwa [heq]

theorem joinLen_le_append (a b : List String) : joinLen b ≤ joinLen (a ++ b) := by
  unfold joinLen
  rw [List.map_append, List.sum_append, List.length_append]
  have : 0 ≤ (a.map String.length).sum := Nat.zero_le _
  omega

theorem lineOk_SegMono (s : Nat) (maxw : ℚ) : SegMono (lineOk s maxw) := by
  intro a b h
  unfold lineOk at h ⊢
  simp only [decide_eq_true_eq] at h ⊢
  have hle : ((joinLen b : Nat) : ℚ) ≤ ((joinLen (a ++ b) : Nat) : ℚ) := by
    exact_mod_cast joinLen_le_append a b
  have hs : (0 : ℚ) ≤ (s : ℚ) * (1 / 2) := by positivity
  calc (joinLen b : ℚ) * (s : ℚ) * (1 / 2)
      = (joinLen b : ℚ) * ((s : ℚ) * (1 / 2)) := by ring
    _ ≤ (joinLen (a ++ b) : ℚ) * ((s : ℚ) * (1 / 2)) := mul_le_mul_of_nonneg_right hle hs
    _ = (joinLen (a ++ b) : ℚ) * (s : ℚ) * (1 / 2) := by ring
    _ < maxw := h

theorem lineOk_anti_size (s s' : Nat) (hss : s' ≤ s) (maxw : ℚ) (l : List String) :
    lineOk s maxw l = true → lineOk s' maxw l = true := by
  unfold lineOk
  simp only [decide_eq_true_eq]
  intro h
  have hcast : ((s' : Nat) : ℚ) ≤ ((s : Nat) : ℚ) := by exact_mod_cast hss
  have hj : (0 : ℚ) ≤ (joinLen l : ℚ) := by positivity
  calc (joinLen l : ℚ) * (s' : ℚ) * (1 / 2)
      ≤ (joinLen l : ℚ) * (s : ℚ) * (1 / 2) := by
        apply mul_le_mul_of_nonneg_right _ (by norm_num)
        exact mul_le_mul_of_nonneg_left hcast hj
    _ < maxw := h

/-- C9: in the text-based strategy's font-size fitting, for a fixed bbox and
a fixed translated text, if a font size `s` fits (every wrapped line's
vertical start stays within the bbox height budget and the whole text is
consumed), then every smaller size `s'` also fits.  Stated for the
geometric fitting test (insertion oracle constantly true), and for all
natural sizes `s' ≤ s`, which covers the candidate list 11,10,9,8,7,6. -/
theorem C9_fitting_monotone (bbox : Bbox) (translated : String) (s s' : Nat)
    (hss : s' ≤ s)
    (hfit : fitsAt (fun _ _ => true) bbox translated s = true) :
    fitsAt (fun _ _ => true) bbox translated s' = true := by
  rw [fitsAt_true_char] at hfit ⊢
  have hmono : countGo (lineOk s' (bbox.x1 - bbox.x0 - 4)) (pySplit translated) [] ≤
      countGo (lineOk s (bbox.x1 - bbox.x0 - 4)) (pySplit translated) [] :=
    countGo_nil_le _ _ (lineOk_anti_size s s' hss (bbox.x1 - bbox.x0 - 4))
      (lineOk_SegMono s' (bbox.x1 - bbox.x0 - 4)) (pySplit translated)
  rcases hfit with h1 | h2
  · left; omega
  · by_cases hL : countGo (lineOk s' (bbox.x1 - bbox.x0 - 4)) (pySplit translated) [] ≤ 1
    · left; exact hL
    · right
      have hsub : ((countGo (lineOk s' (bbox.x1 - bbox.x0 - 4)) (pySplit translated) [] - 1 :
          Nat) : ℚ) ≤ ((countGo (lineOk s (bbox.x1 - bbox.x0 - 4)) (pySplit translated) [] - 1 :
          Nat) : ℚ) := by
        have : (countGo (lineOk s' (bbox.x1 - bbox.x0 - 4)) (pySplit translated) [] - 1 : Nat) ≤
            (countGo (lineOk s (bbox.x1 - bbox.x0 - 4)) (pySplit translated) [] - 1 : Nat) := by
          omega
        exact_mod_cast this
      have hs2 : ((s' : ℚ) + 2) ≤ ((s : ℚ) + 2) := by
        have : ((s' : Nat) : ℚ) ≤ ((s : Nat) : ℚ) := by exact_mod_cast hss
        linarith
      have hnn1 : (0 : ℚ) ≤ ((countGo (lineOk s' (bbox.x1 - bbox.x0 - 4))
          (pySplit translated) [] - 1 : Nat) : ℚ) := by positivity
      have hnn2 : (0 : ℚ) ≤ (s' : ℚ) + 2 := by positivity
      calc ((countGo (lineOk s' (bbox.x1 - bbox.x0 - 4)) (pySplit translated) [] - 1 : Nat) : ℚ) *
            ((s' : ℚ) + 2)
          ≤ ((countGo (lineOk s (bbox.x1 - bbox.x0 - 4)) (pySplit translated) [] - 1 : Nat) : ℚ) *
            ((s : ℚ) + 2) := by
            apply mul_le_mul hsub hs2 hnn2
            positivity
        _ ≤ bbox.y1 - bbox.y0 - 5 := h2

/-- C9 witness: at a 200×200 bbox the text fits at size 11, and the theorem
yields that it also fits at the smaller candidate size 6. -/
theorem C9_witness :
    fitsAt (fun _ _ => true) ⟨0, 0, 200, 200⟩ "aa bb" 11 = true ∧
    fitsAt (fun _ _ => true) ⟨0, 0, 200, 200⟩ "aa bb" 6 = true := by
  have hfit : fitsAt (fun _ _ => true) ⟨0, 0, 200, 200⟩ "aa bb" 11 = true := by
    norm_num [fitsAt, testGo, lineOk, pySplit, pySplitGo, joinLen]
  exact ⟨hfit, C9_fitting_monotone ⟨0, 0, 200, 200⟩ "aa bb" 11 6 (by omega) hfit⟩

/-! ## Claims C1 and C2: the per-fragment renderer -/

theorem testGo_commitGo_ok (ins : String → Nat → Bool) (p : List String → Bool) (s : Nat)
    (hlimit : ℚ) (x y0 : ℚ) :
    ∀ (ws line : List String) (k : Nat),
      testGo ins p s hlimit ws line k = true →
      ∃ ops, commitGo ins p s x y0 ws line k = Except.ok ops ∧
        ∀ op ∈ ops, ∃ a b ln, op = DrawOp.text a b ln s := by
  intro ws
  induction ws with
  | nil =>
    intro line k htest
    by_cases hl : line = []
    · refine ⟨[], ?_, by simp⟩
      simp [commitGo, hl]
    · simp only [testGo, if_neg hl] at htest
      refine ⟨[DrawOp.text x (y0 + (k : ℚ) * ((s : ℚ) + 2)) (joinSp line) s], ?_, ?_⟩
      · simp [commitGo, hl, htest]
      · intro op hop
        simp only [List.mem_singleton] at hop
        exact ⟨_, _, _, hop⟩
  | cons w ws' ih =>
    intro line k htest
    by_cases hl : line = []
    · simp only [testGo, if_pos hl] at htest
      obtain ⟨ops, hok, hprop⟩ := ih [w] k htest
      refine ⟨ops, ?_, hprop⟩
      simp [commitGo, hl, hok]
    · simp only [testGo, if_neg hl] at htest
      by_cases hp : p (line ++ [w]) = true
      · simp only [hp, if_true] at htest
        obtain ⟨ops, hok, hprop⟩ := ih (line ++ [w]) k htest
        refine ⟨ops, ?_, hprop⟩
        simp [commitGo, hl, hp, hok]
      · simp only [hp, Bool.false_eq_true, if_false] at htest
        by_cases hins : ins (joinSp line) s = true
        · simp only [hins, if_true] at htest
          by_cases hover : ((k + 1 : Nat) : ℚ) * ((s : ℚ) + 2) > hlimit
          · exfalso
            rw [if_pos hover] at htest
            exact Bool.false_ne_true htest
          · rw [if_neg hover] at htest
            obtain ⟨ops, hok, hprop⟩ := ih [w] (k + 1) htest
            refine ⟨DrawOp.text x (y0 + (k : ℚ) * ((s : ℚ) + 2)) (joinSp line) s :: ops, ?_, ?_⟩
            · simp [commitGo, hl, hp, hins, hok]
            · intro op hop
              rcases List.mem_cons.1 hop with h | h
              · exact ⟨_, _, _, h⟩
              · exact hprop op h
        · simp [hins] at htest

theorem find?_larger_not_sat {f : Nat → Bool} :
    ∀ l : List Nat, l.Pairwise (· > ·) → ∀ s, l.find? f = some s →
      ∀ t ∈ l, s < t → f t = false := by
  intro l
  induction l with
  | nil => intro _ s h; simp at h
  | cons h tl ih =>
    intro hpw s hfind t ht hst
    rw [List.pairwise_cons] at hpw
    by_cases hf : f h = true
    · have hs : s = h := by
        rw [List.find?_cons_of_pos _ hf] at hfind
        exact (Option.some.inj hfind).symm
      subst hs
      rcases List.mem_cons.1 ht with rfl | htl
      · omega
      · have := hpw.1 t htl
        omega
    · have hf' : f h = false := by
        cases hfh : f h
        · rfl
        · exact absurd hfh hf
      rw [List.find?_cons_of_neg _ (by simp [hf'])] at hfind
      rcases List.mem_cons.1 ht with rfl | htl
      · exact hf'
      · exact ih hpw.2 s hfind t htl hst

/-- C2 counterexample: a fragment whose vector text insertion fails at
every attempt (oracle constantly false) is not rendered as a rasterized
bitmap: the renderer emits no operations at all — in particular no image
operation — instead of falling back to `fallback_insert_text_as_image` as
the claim states. -/
theorem C2_counterexample :
    renderFragment (fun _ _ => false) (fun s => s) [] "f" "hello" ⟨0, 0, 200, 200⟩ =
      Except.ok [] := by
  norm_num [renderFragment, bestFontSize, candidateSizes, fitsAt, testGo, lineOk, pySplit,
    pySplitGo, joinLen, is_formula, translatedOf, cacheGet, alFind, formulaIndicators,
    List.find?]

/-- C2 (amended): the clean text-based renderer never aborts on a fragment
— for every insertion oracle it returns `ok` — but it has no rasterized
fallback: an insertion failure during fitting merely marks the size as
unfitting (dropping the fragment entirely when every size fails), the
commit phase re-inserts exactly the lines the fitting test already
inserted successfully, and the emitted operations never include a bitmap
image; `fallback_insert_text_as_image` is defined but never invoked. -/
theorem C2_no_raster_fallback_never_aborts (ins : String → Nat → Bool)
    (tmd5 : String → String) (cache : Cache) (fileMd5 text : String) (bbox : Bbox) :
    ∃ ops, renderFragment ins tmd5 cache fileMd5 text bbox = Except.ok ops ∧
      ∀ op ∈ ops, op.isImage = false := by
  unfold renderFragment
  by_cases hform : is_formula text = true
  · exact ⟨[], by simp [hform], by simp⟩
  · simp only [hform, Bool.false_eq_true, if_false]
    cases hbest : bestFontSize ins bbox (translatedOf tmd5 cache fileMd5 text) with
    | none => exact ⟨[], by simp, by simp⟩
    | some s =>
      have hfits : fitsAt ins bbox (translatedOf tmd5 cache fileMd5 text) s = true :=
        List.find?_some hbest
      unfold fitsAt at hfits
      obtain ⟨ops, hok, hprop⟩ := testGo_commitGo_ok ins
        (lineOk s (bbox.x1 - bbox.x0 - 4)) s (bbox.y1 - bbox.y0 - 5)
        (bbox.x0 + 2) (bbox.y0 + (s : ℚ))
        (pySplit (translatedOf tmd5 cache fileMd5 text)) [] 0 hfits
      refine ⟨DrawOp.rect bbox.x0 bbox.y0 bbox.x1 bbox.y1 :: ops, ?_, ?_⟩
      · simp [hok]
      · intro op hop
        rcases List.mem_cons.1 hop with rfl | h
        · rfl
        · obtain ⟨a, b, ln, rfl⟩ := hprop op h
          rfl

/-- C2 witness: the amended theorem applied at a concrete fragment — the
renderer returns `ok` and none of its operations is a bitmap image. -/
theorem C2_witness :
    ∃ ops, renderFragment (fun _ _ => true) (fun s => s) [] "f" "hello, world"
        ⟨0, 0, 200, 200⟩ = Except.ok ops ∧ ∀ op ∈ ops, op.isImage = false :=
  C2_no_raster_fallback_never_aborts (fun _ _ => true) (fun s => s) [] "f" "hello, world"
    ⟨0, 0, 200, 200⟩

/-- C1 counterexample: at a 20×10 bbox no candidate size fits the
two-word text, and the renderer emits no operations at all — the
fragment's translated text is dropped entirely (no white rectangle and no
size-6 truncated rendering, contrary to the claim). -/
theorem C1_counterexample :
    bestFontSize (fun _ _ => true) ⟨0, 0, 20, 10⟩ "aaaa bbbb" = none ∧
    renderFragment (fun _ _ => true) (fun s => s) [] "f" "aaaa bbbb" ⟨0, 0, 20, 10⟩ =
      Except.ok [] := by
  constructor
  · norm_num [bestFontSize, candidateSizes, fitsAt, testGo, lineOk, pySplit, pySplitGo,
      joinLen, List.find?]
  · norm_num [renderFragment, bestFontSize, candidateSizes, fitsAt, testGo, lineOk, pySplit,
      pySplitGo, joinLen, is_formula, translatedOf, cacheGet, alFind, formulaIndicators,
      List.find?]

/-- C1 (amended): for every non-formula fragment the font-size fitting
tries the candidate sizes 11,10,9,8,7,6 in descending order and commits
the first (largest) size that fits — the committed size fits and every
larger candidate fails, and the renderer emits the white cover rectangle
followed by the wrapped text lines at that size; if no candidate size
fits, a warning is logged and the fragment is skipped entirely: no white
rectangle and no text are emitted, so the translated text is dropped (it
is not rendered at size 6 with truncation). -/
theorem C1_descending_first_fit_or_drop (ins : String → Nat → Bool)
    (tmd5 : String → String) (cache : Cache) (fileMd5 text : String) (bbox : Bbox)
    (hform : is_formula text = false) :
    (bestFontSize ins bbox (translatedOf tmd5 cache fileMd5 text) = none →
      renderFragment ins tmd5 cache fileMd5 text bbox = Except.ok []) ∧
    (∀ s, bestFontSize ins bbox (translatedOf tmd5 cache fileMd5 text) = some s →
      s ∈ candidateSizes ∧
      fitsAt ins bbox (translatedOf tmd5 cache fileMd5 text) s = true ∧
      (∀ t ∈ candidateSizes, s < t →
        fitsAt ins bbox (translatedOf tmd5 cache fileMd5 text) t = false) ∧
      ∃ ops, renderFragment ins tmd5 cache fileMd5 text bbox =
          Except.ok (DrawOp.rect bbox.x0 bbox.y0 bbox.x1 bbox.y1 :: ops) ∧
        ∀ op ∈ ops, ∃ a b ln, op = DrawOp.text a b ln s) := by
  constructor
  · intro hbest
    simp [renderFragment, hform, hbest]
  · intro s hbest
    refine ⟨List.mem_of_find?_eq_some hbest, List.find?_some hbest, ?_, ?_⟩
    · intro t ht hst
      have hpw : candidateSizes.Pairwise (· > ·) := by decide
      have := find?_larger_not_sat candidateSizes hpw s hbest t ht hst
      simpa using this
    · have hfits : fitsAt ins bbox (translatedOf tmd5 cache fileMd5 text) s = true :=
        List.find?_some hbest
      unfold fitsAt at hfits
      obtain ⟨ops, hok, hprop⟩ := testGo_commitGo_ok ins
        (lineOk s (bbox.x1 - bbox.x0 - 4)) s (bbox.y1 - bbox.y0 - 5)
        (bbox.x0 + 2) (bbox.y0 + (s : ℚ))
        (pySplit (translatedOf tmd5 cache fileMd5 text)) [] 0 hfits
      refine ⟨ops, ?_, hprop⟩
      simp [renderFragment, hform, hbest, hok]

/-- C1 witness: the amended theorem applied at the 20×10 bbox where no
size fits (the fragment is dropped) and at a 200×200 bbox where size 11
fits at once (white rectangle plus size-11 text lines are emitted). -/
theorem C1_witness :
    renderFragment (fun _ _ => true) (fun s => s) [] "f" "aaaa bbbb" ⟨0, 0, 20, 10⟩ =
      Except.ok [] ∧
    (11 ∈ candidateSizes ∧
      fitsAt (fun _ _ => true) ⟨0, 0, 200, 200⟩ "hello" 11 = true ∧
      (∀ t ∈ candidateSizes, 11 < t →
        fitsAt (fun _ _ => true) ⟨0, 0, 200, 200⟩ "hello" t = false) ∧
      ∃ ops, renderFragment (fun _ _ => true) (fun s => s) [] "f" "hello" ⟨0, 0, 200, 200⟩ =
          Except.ok (DrawOp.rect 0 0 200 200 :: ops) ∧
        ∀ op ∈ ops, ∃ a b ln, op = DrawOp.text a b ln 11) := by
  have hf1 : is_formula "aaaa bbbb" = false := by
    have h1 : (("aaaa bbbb").toList.filter (fun c => c ∈ formulaIndicators)).length = 0 := rfl
    have h2 : (pySplit "aaaa bbbb").length = 2 := rfl
    have h3 : ("aaaa bbbb").length = 9 := rfl
    simp only [is_formula, h1, h2, h3]
    norm_num
  have hf2 : is_formula "hello" = false := by
    have h1 : (("hello").toList.filter (fun c => c ∈ formulaIndicators)).length = 0 := rfl
    have h2 : (pySplit "hello").length = 1 := rfl
    have h3 : ("hello").length = 5 := rfl
    simp only [is_formula, h1, h2, h3]
    norm_num
  constructor
  · exact (C1_descending_first_fit_or_drop (fun _ _ => true) (fun s => s) [] "f" "aaaa bbbb"
      ⟨0, 0, 20, 10⟩ hf1).1
      (by norm_num [bestFontSize, candidateSizes, fitsAt, testGo, lineOk, pySplit, pySplitGo,
        joinLen, List.find?])
  · have h := (C1_descending_first_fit_or_drop (fun _ _ => true) (fun s => s) [] "f" "hello"
      ⟨0, 0, 200, 200⟩ hf2).2 11
      (by norm_num [bestFontSize, candidateSizes, fitsAt, testGo, lineOk, pySplit, pySplitGo,
        joinLen, List.find?, translatedOf, cacheGet, alFind])
    simpa [translatedOf, cacheGet, alFind] using h
